import Mathlib

/-
Verification of the newscale motion-stage control library against its
specification. The definitions below are shallow embeddings of the Python
source files (device_codes.py, stage.py, multistage.py, interfaces.py):
pure string/number manipulation becomes Lean functions on List Char, Nat,
Int and Rat; the mutable controller state becomes explicit state passing;
code that can raise becomes Except / Option-of-error results.
-/

namespace Newscale

/-! ### Python-level primitives shared by the whole embedding -/

/-- Python round(): round half to even (banker's rounding), on exact
rationals standing in for the floats of the source. -/
def pyRound (q : ℚ) : ℤ :=
  if Int.fract q < 1/2 then ⌊q⌋
  else if 1/2 < Int.fract q then ⌊q⌋ + 1
  else if 2 ∣ ⌊q⌋ then ⌊q⌋ else ⌊q⌋ + 1

/-- Python int.bit_length(), which for negative ints is taken of the
absolute value. -/
def pyBitLength (i : ℤ) : ℕ :=
  Nat.size i.natAbs

/-- The sixteen lowercase hex digit characters produced by the x format
specifier of a Python f-string. -/
def hexDigitChar (d : ℕ) : Char :=
  match d with
  | 0 => '0' | 1 => '1' | 2 => '2' | 3 => '3'
  | 4 => '4' | 5 => '5' | 6 => '6' | 7 => '7'
  | 8 => '8' | 9 => '9' | 10 => 'a' | 11 => 'b'
  | 12 => 'c' | 13 => 'd' | 14 => 'e' | _ => 'f'

/-- Fuel-driven digit extraction backing toHex; any fuel at least n gives
the hex digits of n, most significant first. -/
def toHexAux (fuel : ℕ) (n : ℕ) : List Char :=
  match fuel with
  | 0 => []
  | fuel + 1 =>
    if n = 0 then []
    else toHexAux fuel (n / 16) ++ [hexDigitChar (n % 16)]

/-- Hex digits of a natural number, most significant first; empty for 0
(matching the digits of a Python x format before zero padding). -/
def toHex (n : ℕ) : List Char :=
  toHexAux n n

/-- Zero padding of a Python 0Nx format specifier. -/
def zeroPad (w : ℕ) (l : List Char) : List Char :=
  List.replicate (w - l.length) '0' ++ l

/-- Python f-string formatting with 0Nx for a nonnegative value:
lowercase hex, zero padded to width w. -/
def pyHex (n w : ℕ) : List Char :=
  zeroPad w (toHex n)

/-- Python 0Nx formatting of a possibly negative int (a leading minus sign
eats one column of the width, as in CPython). -/
def pyHexInt (i : ℤ) (w : ℕ) : List Char :=
  if 0 ≤ i then pyHex i.toNat w else '-' :: pyHex i.natAbs (w - 1)

/-- Numeric value of one hex digit character, upper or lower case,
0 for anything else — the digit reader under a BitArray hex payload. -/
def hexVal (c : Char) : ℕ :=
  match c with
  | '0' => 0 | '1' => 1 | '2' => 2 | '3' => 3
  | '4' => 4 | '5' => 5 | '6' => 6 | '7' => 7
  | '8' => 8 | '9' => 9
  | 'a' => 10 | 'b' => 11 | 'c' => 12
  | 'd' => 13 | 'e' => 14 | 'f' => 15
  | 'A' => 10 | 'B' => 11 | 'C' => 12
  | 'D' => 13 | 'E' => 14 | 'F' => 15
  | _ => 0

/-- Value of a big-endian hex digit string, as BitArray(hex=s) reads its
payload before unpacking. -/
def parseHex : List Char → ℕ
  | [] => 0
  | c :: rest => hexVal c * 16 ^ rest.length + parseHex rest

/-- str.upper over the character list of an ASCII message. -/
def listUpper (l : List Char) : List Char :=
  l.map Char.toUpper

/-! ### The signed 32-bit field codec of move_to_target / parse_reply -/

/-- The mask `ticks & 0xFFFFFFFF` of stage.py: Python ints behave as
infinite two's complement, so the mask is reduction mod 2^32. -/
def twosComplement32 (t : ℤ) : ℕ :=
  (t % 2 ^ 32).toNat

/-- The wire rendering move_to_target gives a signed 32-bit tick value:
two's-complement mask, eight hex digits, uppercased by _get_cmd_str. -/
def encode_s32 (t : ℤ) : List Char :=
  listUpper (pyHex (twosComplement32 t) 8)

/-- The int:32 unpacking parse_reply applies to an 8-hex-digit reply
field: read the digits as a natural number and reinterpret the 32 bits as
two's complement. -/
def unpack_int32 (l : List Char) : ℤ :=
  if parseHex l < 2 ^ 31 then (parseHex l : ℤ) else (parseHex l : ℤ) - 2 ^ 32

end Newscale

namespace Newscale

/-! ### device_codes.py: enumerations -/

/-- Direction codes from device_codes.py (wire values "0", "1", "N"). -/
inductive Direction
  | backward
  | forward
  | neither
deriving DecidableEq

/-- The wire value string of a Direction. -/
def Direction.value : Direction → String
  | .backward => "0"
  | .forward => "1"
  | .neither => "N"

/-- Amplitude/Burst mode from device_codes.py. -/
inductive Mode
  | amplitude
  | burst
deriving DecidableEq

/-- The 24 named state-bit offsets of device_codes.StateBit, in wire order
(least significant bit first). -/
inductive StateBit
  | reserved0
  | direction
  | running
  | driverNotResponsive
  | burstMode
  | timedRun
  | multiplexedAxis
  | hostControlEstablished
  | reserved8
  | forwardLimitReached
  | reverseLimitReached
  | mode
  | reserved12
  | reserved13
  | reserved14
  | backgroundJobActive
  | encoderError
  | zeroReferenceEnabled
  | onTarget
  | movingTowardTarget
  | maintenanceModeEnabled
  | closedLoopEnabled
  | accelerating
  | stalled
deriving DecidableEq

/-- Bit offset of each StateBit (its Enum value in device_codes.py). -/
def StateBit.idx : StateBit → ℕ
  | .reserved0 => 0
  | .direction => 1
  | .running => 2
  | .driverNotResponsive => 3
  | .burstMode => 4
  | .timedRun => 5
  | .multiplexedAxis => 6
  | .hostControlEstablished => 7
  | .reserved8 => 8
  | .forwardLimitReached => 9
  | .reverseLimitReached => 10
  | .mode => 11
  | .reserved12 => 12
  | .reserved13 => 13
  | .reserved14 => 14
  | .backgroundJobActive => 15
  | .encoderError => 16
  | .zeroReferenceEnabled => 17
  | .onTarget => 18
  | .movingTowardTarget => 19
  | .maintenanceModeEnabled => 20
  | .closedLoopEnabled => 21
  | .accelerating => 22
  | .stalled => 23

/-- A value of the state dict built by M3LinearSmartStage._parse_state:
plain booleans for most keys, with the MODE and DIRECTION keys replaced by
richer enums. -/
inductive StateVal
  | flag (b : Bool)
  | mode (m : Mode)
  | direction (d : Direction)
deriving DecidableEq

/-- The bit of the 24-bit state word at a given StateBit position, as read
from reversed(f-string 024b) in _parse_state (valid for words below 2^24,
which is what the uint:24 reply field guarantees). -/
def state_bits (state : ℕ) (k : StateBit) : Bool :=
  state.testBit k.idx

/-- M3LinearSmartStage._parse_state: the state dict keyed by StateBit,
with the MODE and DIRECTION entries converted to their enums. -/
def parse_state (state : ℕ) (k : StateBit) : StateVal :=
  match k with
  | .mode => .mode (if state_bits state .mode then .burst else .amplitude)
  | .direction =>
    .direction (if state_bits state .direction then .forward else .backward)
  | k => .flag (state_bits state k)

/-- The state-dict entry a clear (0) bit decodes to at each key: flag
false, with the enriched MODE and DIRECTION entries taking their bit-0
meanings Amplitude and Backward. -/
def clear_state_val : StateBit → StateVal
  | .mode => .mode .amplitude
  | .direction => .direction .backward
  | _ => .flag false

/-- Python truthiness of a state-dict value: booleans stand for
themselves; Mode and Direction enum members are always truthy. -/
def flagIsTrue : StateVal → Bool
  | .flag b => b
  | .mode _ => true
  | .direction _ => true

/-! ### stage.py: command string construction and error model -/

/-- The Python exception kinds the embedded operations can raise. -/
inductive PyErr
  | assertionError
  | valueError
  | typeError
  | attributeError
  | runtimeError
deriving DecidableEq

/-- " ".join over already-built argument strings. -/
def joinSpace : List (List Char) → List Char
  | [] => []
  | [a] => a
  | a :: b :: rest => a ++ ' ' :: joinSpace (b :: rest)

/-- M3LinearSmartStage._get_cmd_str restricted to string arguments: wrap
the uppercased command and space-joined uppercased arguments in angle
brackets, ending with carriage return. -/
def get_cmd_str (cmd : List Char) (args : List (List Char)) : List Char :=
  let argsStr := if args = [] then [] else ' ' :: joinSpace (args.map listUpper)
  '<' :: (listUpper cmd ++ argsStr ++ ['>', '\r'])

/-- Encoder scale from stage.py: 2 encoder ticks per micrometer. -/
def TICKS_PER_UM : ℚ := 2

/-- Encoder resolution constant from stage.py, in nanometers. -/
def ENC_RES_NM : ℚ := 500

/-! ### stage.py: M3LinearSmartStage operations -/

/-- M3LinearSmartStage.run: direction must not be Neither; an omitted
duration sends only the direction; otherwise the duration is
round(seconds*10), checked against 0xFF and rendered with an 04x format.
The ok value is the command string handed to the transport. -/
def stage_run (direction : Direction) (seconds : Option ℚ) :
    Except PyErr (List Char) :=
  if direction = .neither then .error .assertionError
  else
    match seconds with
    | none => .ok (get_cmd_str "04".data [(Direction.value direction).data])
    | some s =>
      let duration := pyRound (s * 10)
      if ¬ duration ≤ 0xFF then .error .assertionError
      else .ok (get_cmd_str "04".data
        [(Direction.value direction).data, pyHexInt duration 4])

/-- M3LinearSmartStage.move_to_target: round the setpoint to ticks, check
the signed 32-bit range before anything is transmitted, then send the
masked value as eight hex digits. The first component is the list of
messages given to the transport by the call (empty when the range check
fires), the second the raised error if any. -/
def move_to_target (setpoint_um : ℚ) : List (List Char) × Option PyErr :=
  let setpoint_ticks := pyRound (setpoint_um * TICKS_PER_UM)
  if -(0x80000000 : ℤ) ≤ setpoint_ticks ∧ setpoint_ticks ≤ 0x7FFFFFFF then
    ([get_cmd_str "08".data [pyHex (twosComplement32 setpoint_ticks) 8]], none)
  else ([], some .assertionError)

/-- A Python argument handed to _get_cmd_str: multi_time_step passes a mix
of strings and raw floats. -/
inductive PyArg
  | s (v : List Char)
  | f (v : ℚ)
deriving DecidableEq

/-- a.upper() on one _get_cmd_str argument: defined for strings, an
AttributeError for a float. -/
def pyArgUpper : PyArg → Except PyErr (List Char)
  | .s v => .ok (listUpper v)
  | .f _ => .error .attributeError

/-- The list comprehension [a.upper() for a in args] of _get_cmd_str,
evaluated left to right, propagating the first exception. -/
def uppersAll : List PyArg → Except PyErr (List (List Char))
  | [] => .ok []
  | a :: rest =>
    match pyArgUpper a with
    | .error e => .error e
    | .ok u =>
      match uppersAll rest with
      | .error e => .error e
      | .ok tl => .ok (u :: tl)

/-- M3LinearSmartStage._get_cmd_str on mixed arguments, as multi_time_step
invokes it: uppercasing a float argument raises AttributeError. -/
def get_cmd_str_py (cmd : List Char) (args : List PyArg) :
    Except PyErr (List Char) :=
  match uppersAll args with
  | .error e => .error e
  | .ok us =>
    let argsStr := if args = [] then [] else ' ' :: joinSpace us
    .ok ('<' :: (listUpper cmd ++ argsStr ++ ['>', '\r']))

/-- M3LinearSmartStage.multi_time_step, with the cached
get_time_interval_units value passed explicitly. Faithful to the source
order: the NEITHER check, then the assert on step_count > 0 (a Python
TypeError when step_count is None), then the all-or-none assert, the
duration < interval assert, the unit conversions, the 16-bit range
asserts, and finally _get_cmd_str on arguments that include the raw float
interval and duration. -/
def multi_time_step (direction : Direction) (step_count : Option ℤ)
    (step_interval_us step_duration_us : Option ℚ)
    (time_interval_units : ℚ) : Except PyErr (List Char) :=
  if direction = .neither then .error .assertionError
  else
    match step_count with
    | none => .error .typeError
    | some c =>
      if ¬ 0 < c then .error .assertionError
      else
        match step_interval_us, step_duration_us with
        | some i, some d =>
          if ¬ d < i then .error .assertionError
          else
            let step_interval := i / time_interval_units
            let step_duration := d / time_interval_units
            if ¬ c ≤ 0xFFFF then .error .assertionError
            else if ¬ step_interval ≤ 0xFFFF then .error .assertionError
            else if ¬ step_duration ≤ 0xFFFF then .error .assertionError
            else
              get_cmd_str_py "05".data
                [.s (Direction.value direction).data, .s (pyHexInt c 4),
                 .f i, .f d]
        | _, _ => .error .assertionError

/-- The per-axis state mutated by the distance-step convenience commands
(set in the stage constructor). -/
structure StageState where
  step_size_specified : Bool
  last_direction : Direction
deriving DecidableEq

/-- The attribute values the M3LinearSmartStage constructor leaves behind:
no step size ever specified, remembered direction Neither. -/
def initial_stage_state : StageState :=
  ⟨false, .neither⟩

/-- Result of a distance-step call: the state after the call, the
messages given to the transport, whether a warning was logged, and the
raised exception if any (Python state mutations persist past a raise, so
the state is reported even on error). -/
structure StepOutcome where
  state : StageState
  sent : List (List Char)
  warned : Bool
  err : Option PyErr
deriving DecidableEq

/-- M3LinearSmartStage._distance_step: ValueError when no direction and no
size; with no size, warn when no size was ever specified and send the bare
closed-loop step command; with a size, remember that a size was given,
range-check the tick count and send it as eight hex digits. -/
def distance_step_inner (st : StageState) (direction : Direction)
    (step_size_um : Option ℚ) : StepOutcome :=
  if direction = .neither ∧ step_size_um = none then
    ⟨st, [], false, some .valueError⟩
  else
    match step_size_um with
    | none =>
      ⟨st, [get_cmd_str "06".data [(Direction.value direction).data]],
        !st.step_size_specified, none⟩
    | some sz =>
      let st1 : StageState := { st with step_size_specified := true }
      let step_size_ticks := pyRound (sz * TICKS_PER_UM)
      if ¬ pyBitLength step_size_ticks < 32 then
        ⟨st1, [], false, some .assertionError⟩
      else
        ⟨st1, [get_cmd_str "06".data
          [(Direction.value direction).data, pyHexInt step_size_ticks 8]],
          false, none⟩

/-- M3LinearSmartStage.distance_step: the sign of a given size picks the
direction and is remembered; an omitted size repeats the remembered
direction through _distance_step. -/
def distance_step (st : StageState) (step_size_um : Option ℚ) : StepOutcome :=
  match step_size_um with
  | none => distance_step_inner st st.last_direction none
  | some sz =>
    let direction := if 0 ≤ sz then Direction.forward else Direction.backward
    let st1 : StageState := { st with last_direction := direction }
    distance_step_inner st1 direction (some |sz|)

/-- M3LinearSmartStage.set_soft_limits: convert limits and margin to
encoder counts, range-check (signed 32-bit limits, unsigned 16-bit
margin) before sending, then send masked values. The ok value is the
command string handed to the transport. -/
def stage_set_soft_limits (min_limit_um max_limit_um margin_um : ℚ) :
    Except PyErr (List Char) :=
  let min_value := pyRound (min_limit_um * 1000 / ENC_RES_NM)
  let max_value := pyRound (max_limit_um * 1000 / ENC_RES_NM)
  let margin_value := pyRound (margin_um * 1000 / ENC_RES_NM)
  if ¬ (-(0x80000000 : ℤ) ≤ min_value ∧ min_value ≤ 0x7FFFFFFF) then
    .error .assertionError
  else if ¬ (-(0x80000000 : ℤ) ≤ max_value ∧ max_value ≤ 0x7FFFFFFF) then
    .error .assertionError
  else if ¬ ((0 : ℤ) ≤ margin_value ∧ margin_value ≤ 0xFFFF) then
    .error .assertionError
  else
    .ok (get_cmd_str "46".data
      [pyHex (twosComplement32 max_value) 8,
       pyHex (twosComplement32 min_value) 8,
       pyHex margin_value.toNat 4])

/-! ### interfaces.py: the addressed transport -/

/-- The shared-transport state HardwareInterface keeps: the address of the
stage last selected on the hub, if any. -/
structure InterfaceState where
  last_address : Option String
deriving DecidableEq

/-- The stage-select transceiver command string of _select_stage. -/
def tr_select_msg (address : String) : List Char :=
  "TR<A0 ".data ++ address.data ++ ">\r".data

/-- Result of a _select_stage call: the interface state after the call,
the messages written to the raw channel, and the raised error if any. -/
structure SelectResult where
  state : InterfaceState
  sent : List (List Char)
  err : Option PyErr
deriving DecidableEq

/-- HardwareInterface._select_stage: records the requested address as the
last selected address, sends the stage-select command, then decodes the
reply as (cmd, stage_address, device_present) and raises RuntimeError when
the device-present flag is not 1. Faithful to the source order: the
last_address assignment happens before the round trip. -/
def select_stage (st : InterfaceState) (address : String)
    (reply_stage_address reply_device_present : ℕ) : SelectResult :=
  let st1 : InterfaceState := { st with last_address := some address }
  let sent := [tr_select_msg address]
  if reply_device_present = 1 then ⟨st1, sent, none⟩
  else ⟨st1, sent, some .runtimeError⟩

/-! ### multistage.py: the multi-axis coordinator -/

/-- MultiStage.MOVE_TIMEOUT_S: the default move timeout, in seconds. -/
def MOVE_TIMEOUT_S : ℚ := 15

/-- The sleep duration of each poll-loop iteration (sleep(0.01)), in
seconds. -/
def POLL_SLEEP_S : ℚ := 1 / 100

/-- Observable actions of the move_absolute wait loop: one closed-loop
state read covering every polled axis, a sleep of a given duration, and
the three exits. -/
inductive PollEvent
  | readAll (stats : List (String × ℕ))
  | sleep (duration : ℚ)
  | raiseStalled
  | raiseTimeout
  | ret
deriving DecidableEq

/-- stats[x][StateBit.STALLED] for the state word read from axis x. -/
def axisStalled (read : String → ℕ) (x : String) : Bool :=
  flagIsTrue (parse_state (read x) .stalled)

/-- not stats[x][StateBit.RUNNING] and stats[x][StateBit.ON_TARGET]. -/
def axisDone (read : String → ℕ) (x : String) : Bool :=
  !flagIsTrue (parse_state (read x) .running) &&
    flagIsTrue (parse_state (read x) .onTarget)

/-- The wait loop of MultiStage.move_absolute over an abstract poll trace.
Each trace element carries the perf_counter reading at that iteration's
loop-condition check and the per-axis state words the reads would return.
The result is the list of observable actions, or none when the trace ends
before the loop settles. Faithful to the source order: timeout condition
first, then one read of every polled axis, then the stall check, then the
success check, then a 10 ms sleep before the next iteration. -/
def move_absolute_wait (axes : List String) (start : ℚ) :
    List (ℚ × (String → ℕ)) → Option (List PollEvent)
  | [] => none
  | (t, read) :: rest =>
    if t - start < MOVE_TIMEOUT_S then
      let stats := axes.map fun x => (x, read x)
      if axes.any (axisStalled read) then
        some [.readAll stats, .raiseStalled]
      else if axes.all (axisDone read) then
        some [.readAll stats, .ret]
      else
        (move_absolute_wait axes start rest).map
          fun evs => .readAll stats :: .sleep POLL_SLEEP_S :: evs
    else some [.raiseTimeout]

/-- The method names defined on M3LinearSmartStage in stage.py (the
attribute lookups that succeed on a stage object). -/
def m3_stage_method_names : List String :=
  ["get_firmware_version", "close", "halt", "run", "multi_time_step",
   "_distance_step", "distance_step", "set_distance_step_size",
   "clear_encoder_count", "move_to_target", "get_target_position",
   "set_open_loop_speed", "get_open_loop_speed",
   "get_closed_loop_state_and_position", "get_position", "_parse_state",
   "get_motor_status", "_parse_motor_flags", "set_drive_mode",
   "get_drive_mode", "set_closed_loop_speed_and_accel",
   "get_closed_loop_speed_and_accel", "set_soft_limits", "get_soft_limits",
   "_set_soft_limit_state", "enable_soft_limits", "disable_soft_limits",
   "get_time_interval_units", "set_baud_rate", "get_baud_rate",
   "_get_cmd_str", "_parse_reply", "_send"]

/-- The global-setting loop of MultiStage.set_closed_loop_speed_and_accel:
for every axis, look up the attribute name the source spells
(set_set_closed_loop_speed_and_accel) on the stage object and call it.
The first component lists the per-axis calls that went through, the
second the raised error if any. -/
def ms_apply_global_speed_setting (stages : List String)
    (setting : ℚ × ℚ) : List (String × (ℚ × ℚ)) × Option PyErr :=
  match stages with
  | [] => ([], none)
  | name :: rest =>
    if "set_set_closed_loop_speed_and_accel" ∈ m3_stage_method_names then
      ((name, setting) :: (ms_apply_global_speed_setting rest setting).1,
        (ms_apply_global_speed_setting rest setting).2)
    else ([], some .attributeError)

/-- The per-axis loop of MultiStage.set_closed_loop_speed_and_accel, which
looks up the correctly spelled stage method. -/
def ms_apply_per_axis_speed_settings (axes : List (String × (ℚ × ℚ))) :
    List (String × (ℚ × ℚ)) × Option PyErr :=
  match axes with
  | [] => ([], none)
  | (name, setting) :: rest =>
    if "set_closed_loop_speed_and_accel" ∈ m3_stage_method_names then
      ((name, setting) :: (ms_apply_per_axis_speed_settings rest).1,
        (ms_apply_per_axis_speed_settings rest).2)
    else ([], some .attributeError)

/-- MultiStage.set_closed_loop_speed_and_accel: a given global setting is
broadcast through the (misspelled) per-axis attribute call; otherwise the
per-axis settings are applied. -/
def ms_set_closed_loop_speed_and_accel (stages : List String)
    (global_setting : Option (ℚ × ℚ)) (axes : List (String × (ℚ × ℚ))) :
    List (String × (ℚ × ℚ)) × Option PyErr :=
  match global_setting with
  | some g => ms_apply_global_speed_setting stages g
  | none => ms_apply_per_axis_speed_settings axes

/-- MultiStage.set_soft_limits: iterate the per-axis entries in order;
each entry must unpack as exactly (min_limit, max_limit) — a third element
raises the tuple-unpacking ValueError when that entry is reached — and the
stage-level call is made with the default margin 0. The first component
lists the (axis, min, max, margin) invocations that were issued, the
second the raised error if any. -/
def ms_set_soft_limits :
    List (String × List ℚ) → List (String × ℚ × ℚ × ℚ) × Option PyErr
  | [] => ([], none)
  | (name, vals) :: rest =>
    match vals with
    | [mn, mx] =>
      match stage_set_soft_limits mn mx 0 with
      | .error e => ([(name, mn, mx, 0)], some e)
      | .ok _ =>
        ((name, mn, mx, 0) :: (ms_set_soft_limits rest).1,
          (ms_set_soft_limits rest).2)
    | _ => ([], some .valueError)

/-! ### Helper lemmas about the hex codec -/

theorem hexVal_hexDigitChar : ∀ d < 16, hexVal (hexDigitChar d) = d := by
  decide

theorem hexVal_toUpper_hexDigitChar :
    ∀ d < 16, hexVal (Char.toUpper (hexDigitChar d)) = d := by
  decide

theorem parseHex_cons (c : Char) (l : List Char) :
    parseHex (c :: l) = hexVal c * 16 ^ l.length + parseHex l := rfl

theorem parseHex_append (a b : List Char) :
    parseHex (a ++ b) = parseHex a * 16 ^ b.length + parseHex b := by
  induction a with
  | nil => simp [parseHex]
  | cons c t ih =>
    rw [List.cons_append, parseHex_cons, parseHex_cons, ih, List.length_append]
    ring

theorem toHexAux_spec (fuel : ℕ) :
    ∀ n ≤ fuel,
      parseHex (toHexAux fuel n) = n ∧
      (∀ c ∈ toHexAux fuel n, ∃ d, d < 16 ∧ c = hexDigitChar d) ∧
      (∀ k, n < 16 ^ k → (toHexAux fuel n).length ≤ k) := by
  induction fuel with
  | zero =>
    intro n hn
    have : n = 0 := by omega
    subst this
    exact ⟨rfl, by simp [toHexAux], by simp [toHexAux]⟩
  | succ fuel ih =>
    intro n hn
    by_cases h0 : n = 0
    · subst h0
      exact ⟨by simp [toHexAux, parseHex], by simp [toHexAux],
        by simp [toHexAux]⟩
    · have hdivle : n / 16 ≤ fuel := by
        have := Nat.div_lt_self (Nat.pos_of_ne_zero h0) (by omega : 1 < 16)
        omega
      obtain ⟨ihv, ihd, ihl⟩ := ih (n / 16) hdivle
      have hrec : toHexAux (fuel + 1) n =
          toHexAux fuel (n / 16) ++ [hexDigitChar (n % 16)] := by
        simp [toHexAux, h0]
      have h16 : n % 16 < 16 := Nat.mod_lt _ (by omega)
      refine ⟨?_, ?_, ?_⟩
      · rw [hrec, parseHex_append, ihv]
        simp only [parseHex, List.length_nil, pow_zero, mul_one, add_zero,
          List.length_cons]
        rw [hexVal_hexDigitChar _ h16]
        omega
      · intro c hc
        rw [hrec] at hc
        rcases List.mem_append.mp hc with hm | hm
        · exact ihd c hm
        · simp only [List.mem_singleton] at hm
          exact ⟨n % 16, h16, hm⟩
      · intro k hk
        rw [hrec]
        rcases Nat.eq_zero_or_pos k with hk0 | hkpos
        · subst hk0
          simp only [pow_zero] at hk
          omega
        · have hdk : n / 16 < 16 ^ (k - 1) := by
            rw [Nat.div_lt_iff_lt_mul (by norm_num : 0 < 16)]
            calc n < 16 ^ k := hk
            _ = 16 ^ (k - 1) * 16 := by
                rw [← Nat.pow_succ]
                congr 1
                omega
          have := ihl (k - 1) hdk
          simp only [List.length_append, List.length_singleton]
          omega

theorem toHex_digits (n : ℕ) :
    ∀ c ∈ toHex n, ∃ d, d < 16 ∧ c = hexDigitChar d :=
  (toHexAux_spec n n le_rfl).2.1

theorem parseHex_toHex (n : ℕ) : parseHex (toHex n) = n :=
  (toHexAux_spec n n le_rfl).1

theorem parseHex_replicate_zero (k : ℕ) :
    parseHex (List.replicate k '0') = 0 := by
  induction k with
  | zero => rfl
  | succ k ih => simp [List.replicate_succ, parseHex, ih, hexVal]

theorem parseHex_pyHex (n w : ℕ) : parseHex (pyHex n w) = n := by
  unfold pyHex zeroPad
  rw [parseHex_append, parseHex_replicate_zero, parseHex_toHex]
  ring

theorem parseHex_listUpper (l : List Char)
    (h : ∀ c ∈ l, ∃ d, d < 16 ∧ c = hexDigitChar d) :
    parseHex (listUpper l) = parseHex l := by
  induction l with
  | nil => rfl
  | cons c t ih =>
    obtain ⟨d, hd, rfl⟩ := h c (by simp)
    simp only [listUpper, List.map_cons, parseHex, List.length_map]
    rw [hexVal_toUpper_hexDigitChar d hd, hexVal_hexDigitChar d hd]
    have := ih (fun c hc => h c (by simp [hc]))
    simp only [listUpper] at this
    rw [this]

theorem pyHex_digits (n w : ℕ) :
    ∀ c ∈ pyHex n w, ∃ d, d < 16 ∧ c = hexDigitChar d := by
  intro c hc
  unfold pyHex zeroPad at hc
  rcases List.mem_append.mp hc with hm | hm
  · exact ⟨0, by omega, (List.eq_of_mem_replicate hm)⟩
  · exact toHex_digits n c hm

theorem parseHex_listUpper_pyHex (n w : ℕ) :
    parseHex (listUpper (pyHex n w)) = n := by
  rw [parseHex_listUpper _ (pyHex_digits n w), parseHex_pyHex]

theorem toHex_length_le (k : ℕ) :
    ∀ n, n < 16 ^ k → (toHex n).length ≤ k := fun n h =>
  (toHexAux_spec n n le_rfl).2.2 k h

theorem pyHex_length (n w : ℕ) (h : n < 16 ^ w) :
    (pyHex n w).length = w := by
  unfold pyHex zeroPad
  have := toHex_length_le w n h
  simp only [List.length_append, List.length_replicate]
  omega


/-! ### C4 theorem -/

/-- C4: for every integer t in [-2^31, 2^31-1], encoding t the way
move_to_target renders a signed 32-bit tick field (two's-complement mask,
eight hex digits) and decoding that field with the reply parser's int:32
unpacking returns exactly t. -/
theorem encode_decode_s32_roundtrip (t : ℤ)
    (h1 : -(2 ^ 31) ≤ t) (h2 : t ≤ 2 ^ 31 - 1) :
    unpack_int32 (encode_s32 t) = t := by
  unfold unpack_int32 encode_s32 twosComplement32
  rw [parseHex_listUpper_pyHex]
  split <;> rename_i h <;> omega

/-- C4 witness: the round trip evaluated at the concrete tick value -5. -/
theorem encode_decode_s32_roundtrip_witness :
    (-(2 ^ 31) ≤ (-5 : ℤ)) ∧ ((-5 : ℤ) ≤ 2 ^ 31 - 1) ∧
      unpack_int32 (encode_s32 (-5)) = -5 :=
  ⟨by decide, by decide, encode_decode_s32_roundtrip (-5) (by decide) (by decide)⟩

/-! ### Further helper lemmas -/

/-- pyRound is the identity on values that are exact integers. -/
theorem pyRound_intCast (n : ℤ) : pyRound ((n : ℚ)) = n := by
  unfold pyRound
  rw [Int.fract_intCast, Int.floor_intCast]
  norm_num

/-! ### C3 theorem -/

/-- C3: decoding the 24-bit state word 0x000000 yields the state dict in
which every named flag is clear (false, with the enriched MODE and
DIRECTION entries at their bit-0 meanings Amplitude and Backward), and
decoding the word with only bit 23 set yields Stalled = true with every
other entry still clear. -/
theorem parse_state_zero_and_stalled_bit :
    (∀ k, parse_state 0 k = clear_state_val k) ∧
    (∀ k, parse_state 0x800000 k =
      if k = StateBit.stalled then StateVal.flag true
      else clear_state_val k) := by
  constructor <;> intro k <;> cases k <;> decide

/-! ### C5 theorems -/

/-- C5: every position whose rounded tick value (setpoint_um * 2) falls
outside the signed 32-bit range makes move_to_target raise the range
assertion with no message handed to the transport. -/
theorem move_to_target_out_of_range (setpoint_um : ℚ)
    (h : pyRound (setpoint_um * TICKS_PER_UM) < -(2 ^ 31) ∨
      2 ^ 31 - 1 < pyRound (setpoint_um * TICKS_PER_UM)) :
    move_to_target setpoint_um = ([], some PyErr.assertionError) := by
  have hn : ¬ (-(0x80000000 : ℤ) ≤ pyRound (setpoint_um * TICKS_PER_UM) ∧
      pyRound (setpoint_um * TICKS_PER_UM) ≤ 0x7FFFFFFF) := by omega
  simp only [move_to_target]
  rw [if_neg hn]

/-- C5 witness: a setpoint of 2^30 micrometers rounds to 2^31 ticks, which
exceeds the signed 32-bit maximum, and the call sends nothing. -/
theorem move_to_target_out_of_range_witness :
    (2 ^ 31 - 1 < pyRound ((1073741824 : ℚ) * TICKS_PER_UM)) ∧
    move_to_target 1073741824 = ([], some PyErr.assertionError) := by
  have hq : (1073741824 : ℚ) * TICKS_PER_UM = ((2147483648 : ℤ) : ℚ) := by
    norm_num [TICKS_PER_UM]
  have hr : pyRound ((1073741824 : ℚ) * TICKS_PER_UM) = 2147483648 := by
    rw [hq, pyRound_intCast]
  exact ⟨by rw [hr]; norm_num,
    move_to_target_out_of_range _ (Or.inr (by rw [hr]; norm_num))⟩

/-! ### C9 theorems -/

/-- C9 counterexample: run Forward for 1 second sends <04 1 000A> — the
duration field is rendered by an 04x format and has four hex digits, not
exactly two as claimed. -/
theorem run_duration_field_has_four_digits :
    stage_run .forward (some 1) = .ok "<04 1 000A>\r".data ∧
    (pyHexInt (pyRound ((1 : ℚ) * 10)) 4).length = 4 := by
  have h10 : pyRound ((1 : ℚ) * 10) = 10 := by
    have h : ((1 : ℚ) * 10) = ((10 : ℤ) : ℚ) := by norm_num
    rw [h, pyRound_intCast]
  have hrun : stage_run .forward (some 1) =
      if ¬ pyRound ((1 : ℚ) * 10) ≤ 0xFF then .error .assertionError
      else .ok (get_cmd_str "04".data
        [(Direction.value .forward).data,
         pyHexInt (pyRound ((1 : ℚ) * 10)) 4]) := rfl
  rw [hrun, h10]
  exact ⟨rfl, rfl⟩

/-- C9 amended: for every run call with a Forward or Backward direction,
an omitted duration sends the run command with only the direction
argument; a supplied duration is encoded as round(seconds*10) and the call
fails exactly when that value exceeds 255; an accepted nonnegative
duration is rendered as a four-hex-digit zero-padded field (width 4, not
2) whose hex value is the encoded duration. -/
theorem run_spec (direction : Direction) (s : ℚ)
    (hd : direction ≠ Direction.neither) :
    (stage_run direction none =
      .ok ('<' :: '0' :: '4' :: ' ' ::
        ((Direction.value direction).data ++ ['>', '\r']))) ∧
    (0xFF < pyRound (s * 10) →
      stage_run direction (some s) = .error PyErr.assertionError) ∧
    (0 ≤ pyRound (s * 10) → pyRound (s * 10) ≤ 0xFF →
      ∃ fld, stage_run direction (some s) =
          .ok ('<' :: '0' :: '4' :: ' ' ::
            ((Direction.value direction).data ++ ' ' :: fld ++ ['>', '\r'])) ∧
        fld.length = 4 ∧ (parseHex fld : ℤ) = pyRound (s * 10)) := by
  have hform : stage_run direction (some s) =
      if ¬ pyRound (s * 10) ≤ 0xFF then .error .assertionError
      else .ok (get_cmd_str "04".data
        [(Direction.value direction).data,
         pyHexInt (pyRound (s * 10)) 4]) := by
    cases direction with
    | neither => exact absurd rfl hd
    | forward => rfl
    | backward => rfl
  refine ⟨?_, ?_, ?_⟩
  · cases direction with
    | neither => exact absurd rfl hd
    | forward => rfl
    | backward => rfl
  · intro hgt
    rw [hform, if_pos (by omega)]
  · intro h0 h255
    have hhex : pyHexInt (pyRound (s * 10)) 4 =
        pyHex (pyRound (s * 10)).toNat 4 := by
      unfold pyHexInt
      rw [if_pos h0]
    have hlt : (pyRound (s * 10)).toNat < 16 ^ 4 := by omega
    refine ⟨listUpper (pyHex (pyRound (s * 10)).toNat 4), ?_, ?_, ?_⟩
    · rw [hform, if_neg (by omega), hhex]
      cases direction with
      | neither => exact absurd rfl hd
      | forward =>
        simp [get_cmd_str, joinSpace, listUpper] <;> decide
      | backward =>
        simp [get_cmd_str, joinSpace, listUpper] <;> decide
    · rw [listUpper, List.length_map, pyHex_length _ _ hlt]
    · rw [parseHex_listUpper_pyHex]
      omega

/-- C9 witness: run_spec applied with direction Forward and a 1-second
duration; the omitted-duration conclusion is extracted. -/
theorem run_spec_witness :
    Direction.forward ≠ Direction.neither ∧
    stage_run .forward none =
      .ok ('<' :: '0' :: '4' :: ' ' ::
        ((Direction.value .forward).data ++ ['>', '\r'])) :=
  ⟨by decide, (run_spec .forward 1 (by decide)).1⟩

/-! ### C1 theorems -/

/-- C1 counterexample: on a fresh interface (no address ever selected), a
select of address 01 whose reply carries device-present flag 0 raises the
address-not-present RuntimeError, yet the recorded last selected address
is now 01 — it is not the same as before the failed call. -/
theorem select_stage_failure_changes_last_address :
    (select_stage ⟨none⟩ "01" 1 0).err = some PyErr.runtimeError ∧
    (select_stage ⟨none⟩ "01" 1 0).state.last_address ≠
      (⟨none⟩ : InterfaceState).last_address := by
  constructor
  · rfl
  · simp [select_stage]

/-- C1 amended: when the select round trip decodes a device-present flag
different from 1, _select_stage raises the address-not-present
RuntimeError, and the recorded last selected address equals the
just-requested address (the assignment happens before the round trip, so
the previous value is not preserved). -/
theorem select_stage_failure_spec (st : InterfaceState) (address : String)
    (reply_stage_address reply_device_present : ℕ)
    (h : reply_device_present ≠ 1) :
    (select_stage st address reply_stage_address reply_device_present).err =
        some PyErr.runtimeError ∧
    (select_stage st address reply_stage_address
        reply_device_present).state.last_address = some address := by
  simp only [select_stage]
  rw [if_neg h]
  exact ⟨rfl, rfl⟩

/-- C1 witness: select_stage applied on a transport that had address 00
selected, requesting address 01 with a device-present flag of 0. -/
theorem select_stage_failure_spec_witness :
    (0 : ℕ) ≠ 1 ∧
    ((select_stage ⟨some "00"⟩ "01" 1 0).err = some PyErr.runtimeError ∧
     (select_stage ⟨some "00"⟩ "01" 1 0).state.last_address = some "01") :=
  ⟨by decide, select_stage_failure_spec ⟨some "00"⟩ "01" 1 0 (by decide)⟩

/-! ### C6 theorem -/

/-- C6 code evaluation: with one axis and an in-range global setting, the
global branch of MultiStage.set_closed_loop_speed_and_accel stops with an
AttributeError before configuring any axis, because the attribute name the
source spells (set_set_closed_loop_speed_and_accel) does not exist on the
stage class. -/
theorem ms_set_closed_loop_speed_and_accel_global_raises :
    ms_set_closed_loop_speed_and_accel ["x"] (some (100, 1000)) [] =
      ([], some PyErr.attributeError) := by
  decide

/-! ### C7 theorem -/

/-- C7 code evaluation: multi_time_step with a valid Forward direction and
all three optional parameters omitted raises TypeError at the assert
comparing step_count (None) with 0, instead of sending the open-loop step
command with only the direction. -/
theorem multi_time_step_all_omitted_raises :
    multi_time_step .forward none none none 1 = .error PyErr.typeError := rfl

/-! ### C8 theorems -/

/-- C8 counterexample: the first-ever distance_step call with the step
size omitted, on the fresh controller state (no step size or direction
ever given), raises ValueError with no warning logged and nothing sent —
it does not proceed to send the closed-loop step command. -/
theorem distance_step_first_omitted_raises :
    distance_step initial_stage_state none =
      ⟨initial_stage_state, [], false, some PyErr.valueError⟩ := by
  decide

/-- C8 amended: on any controller state that has never been given a
direction (remembered direction Neither, as after construction), a
distance_step call with the size omitted raises ValueError, sends nothing
and logs no warning, rather than proceeding with a device-side default. -/
theorem distance_step_omitted_without_direction (st : StageState)
    (h : st.last_direction = Direction.neither) :
    distance_step st none = ⟨st, [], false, some PyErr.valueError⟩ := by
  unfold distance_step distance_step_inner
  rw [h]
  simp

/-- C8 witness: the amended claim applied to the fresh constructor
state. -/
theorem distance_step_omitted_without_direction_witness :
    initial_stage_state.last_direction = Direction.neither ∧
    distance_step initial_stage_state none =
      ⟨initial_stage_state, [], false, some PyErr.valueError⟩ :=
  ⟨rfl, distance_step_omitted_without_direction initial_stage_state rfl⟩

/-! ### C2 theorems -/

/-- Every event list the wait loop can produce reads exactly the targeted
axes on each iteration and sleeps exactly 10 ms between iterations. -/
theorem move_absolute_wait_events (axes : List String) (start : ℚ) :
    ∀ trace evs, move_absolute_wait axes start trace = some evs →
      (∀ stats, PollEvent.readAll stats ∈ evs → stats.map Prod.fst = axes) ∧
      (∀ q, PollEvent.sleep q ∈ evs → q = POLL_SLEEP_S) := by
  intro trace
  induction trace with
  | nil =>
    intro evs h
    simp [move_absolute_wait] at h
  | cons hd rest ih =>
    obtain ⟨t, read⟩ := hd
    intro evs h
    have hfst : (axes.map fun x => (x, read x)).map Prod.fst = axes := by
      simp [Function.comp_def]
    simp only [move_absolute_wait] at h
    split at h
    · split at h
      · rw [Option.some_inj] at h
        subst h
        constructor
        · intro stats hs
          rcases List.mem_cons.mp hs with he | he
          · rw [(PollEvent.readAll.injEq _ _).mp he.symm] at hfst
            exact hfst
          · simp at he
        · intro q hq
          rcases List.mem_cons.mp hq with he | he
          · exact absurd he (by simp)
          · simp at he
      · split at h
        · rw [Option.some_inj] at h
          subst h
          constructor
          · intro stats hs
            rcases List.mem_cons.mp hs with he | he
            · rw [(PollEvent.readAll.injEq _ _).mp he.symm] at hfst
              exact hfst
            · simp at he
          · intro q hq
            rcases List.mem_cons.mp hq with he | he
            · exact absurd he (by simp)
            · simp at he
        · rcases Option.map_eq_some'.mp h with ⟨evs0, h0, rfl⟩
          obtain ⟨ih1, ih2⟩ := ih evs0 h0
          constructor
          · intro stats hs
            rcases List.mem_cons.mp hs with he | he
            · rw [(PollEvent.readAll.injEq _ _).mp he.symm] at hfst
              exact hfst
            · rcases List.mem_cons.mp he with he2 | he2
              · exact absurd he2 (by simp)
              · exact ih1 stats he2
          · intro q hq
            rcases List.mem_cons.mp hq with he | he
            · exact absurd he (by simp)
            · rcases List.mem_cons.mp he with he2 | he2
              · exact (PollEvent.sleep.injEq _ _).mp he2
              · exact ih2 q he2
    · rw [Option.some_inj] at h
      subst h
      constructor
      · intro stats hs
        rcases List.mem_cons.mp hs with he | he
        · exact absurd he (by simp)
        · simp at he
      · intro q hq
        rcases List.mem_cons.mp hq with he | he
        · exact absurd he (by simp)
        · simp at he

/-- C2: the move_absolute wait loop, over any poll trace: the iteration
whose clock reading shows 15 s elapsed raises the timeout error; within
time, an iteration with any targeted axis reporting Stalled raises the
stall error immediately after that read — before the success check and
independent of the remaining trace; within time with no stall, an
iteration where every targeted axis reports not-Running and On-Target
returns success; otherwise the loop sleeps 10 ms and continues; every
produced event trace reads the closed-loop state of exactly the targeted
axes each iteration with 10 ms sleeps between iterations; and the
constants are the 15-second default timeout and the 10 ms poll sleep. -/
theorem move_absolute_wait_spec (axes : List String) (start t : ℚ)
    (read : String → ℕ) (rest : List (ℚ × (String → ℕ))) :
    (¬ t - start < MOVE_TIMEOUT_S →
      move_absolute_wait axes start ((t, read) :: rest) =
        some [.raiseTimeout]) ∧
    (t - start < MOVE_TIMEOUT_S → axes.any (axisStalled read) = true →
      move_absolute_wait axes start ((t, read) :: rest) =
        some [.readAll (axes.map fun x => (x, read x)), .raiseStalled]) ∧
    (t - start < MOVE_TIMEOUT_S → axes.any (axisStalled read) = false →
      axes.all (axisDone read) = true →
      move_absolute_wait axes start ((t, read) :: rest) =
        some [.readAll (axes.map fun x => (x, read x)), .ret]) ∧
    (t - start < MOVE_TIMEOUT_S → axes.any (axisStalled read) = false →
      axes.all (axisDone read) = false →
      move_absolute_wait axes start ((t, read) :: rest) =
        (move_absolute_wait axes start rest).map
          fun evs => .readAll (axes.map fun x => (x, read x)) ::
            .sleep POLL_SLEEP_S :: evs) ∧
    (∀ evs, move_absolute_wait axes start ((t, read) :: rest) = some evs →
      (∀ stats, PollEvent.readAll stats ∈ evs → stats.map Prod.fst = axes) ∧
      (∀ q, PollEvent.sleep q ∈ evs → q = POLL_SLEEP_S)) ∧
    MOVE_TIMEOUT_S = 15 ∧ POLL_SLEEP_S = 1 / 100 := by
  refine ⟨?_, ?_, ?_, ?_,
    fun evs h => move_absolute_wait_events axes start _ evs h, rfl, rfl⟩
  · intro h1
    simp only [move_absolute_wait, if_neg h1]
  · intro h1 h2
    simp only [move_absolute_wait, if_pos h1, h2, if_true]
  · intro h1 h2 h3
    simp only [move_absolute_wait, if_pos h1, h2, h3, if_true,
      Bool.false_eq_true, if_false]
  · intro h1 h2 h3
    simp only [move_absolute_wait, if_pos h1, h2, h3,
      Bool.false_eq_true, if_false]

/-- C2 witness: a one-axis trace whose first poll reports a stalled axis:
the loop stops with the stall error right after the first read. -/
theorem move_absolute_wait_spec_witness :
    ((0 : ℚ) - 0 < MOVE_TIMEOUT_S) ∧
    (["x"].any (axisStalled fun _ => 0x800000) = true) ∧
    move_absolute_wait ["x"] 0 [(0, fun _ => 0x800000)] =
      some [.readAll (["x"].map fun x => (x, (fun _ : String => 0x800000) x)),
        .raiseStalled] := by
  have h1 : (0 : ℚ) - 0 < MOVE_TIMEOUT_S := by norm_num [MOVE_TIMEOUT_S]
  have h2 : (["x"].any (axisStalled fun _ => 0x800000)) = true := by decide
  exact ⟨h1, h2,
    (move_absolute_wait_spec ["x"] 0 0 (fun _ => 0x800000) []).2.1 h1 h2⟩

/-! ### C10 theorems -/

/-- C10: the multistage soft-limit coordinator forwards no per-axis
margin — every stage invocation it issues carries the stage-level default
margin 0 — and a per-axis entry with a third (margin) element raises the
tuple-unpacking ValueError when that entry is reached, after the earlier
two-element in-range entries have all been applied. -/
theorem ms_set_soft_limits_spec :
    (∀ entries inv, inv ∈ (ms_set_soft_limits entries).1 →
      inv.2.2.2 = 0) ∧
    (∀ (pre : List (String × List ℚ)) (name : String) (a b c : ℚ)
        (rest : List (String × List ℚ)),
      (∀ e ∈ pre, ∃ mn mx, e.2 = [mn, mx] ∧
        ∃ m, stage_set_soft_limits mn mx 0 = .ok m) →
      (ms_set_soft_limits (pre ++ (name, [a, b, c]) :: rest)).2 =
          some PyErr.valueError ∧
      (ms_set_soft_limits (pre ++ (name, [a, b, c]) :: rest)).1 =
          (ms_set_soft_limits pre).1 ∧
      (ms_set_soft_limits pre).1.length = pre.length) := by
  constructor
  · intro entries
    induction entries with
    | nil =>
      intro inv h
      simp [ms_set_soft_limits] at h
    | cons e rest ih =>
      obtain ⟨name, vals⟩ := e
      intro inv hmem
      simp only [ms_set_soft_limits] at hmem
      split at hmem
      · split at hmem
        · rcases List.mem_singleton.mp hmem with rfl
          rfl
        · rcases List.mem_cons.mp hmem with rfl | htl
          · rfl
          · exact ih inv htl
      · simp at hmem
  · intro pre name a b c rest
    induction pre with
    | nil =>
      intro hyp
      refine ⟨rfl, rfl, rfl⟩
    | cons e pre ih =>
      intro hyp
      obtain ⟨en, vals⟩ := e
      obtain ⟨mn, mx, hvals, m, hok⟩ := hyp (en, vals) (by simp)
      simp only at hvals
      subst hvals
      have htail := ih fun e he => hyp e (by simp [he])
      obtain ⟨ht1, ht2, ht3⟩ := htail
      refine ⟨?_, ?_, ?_⟩
      · simpa [ms_set_soft_limits, hok] using ht1
      · simp only [List.cons_append, ms_set_soft_limits, hok]
        exact congrArg (fun l => (en, mn, mx, 0) :: l) ht2
      · simp only [ms_set_soft_limits, hok, List.length_cons]
        rw [ht3]

/-- C10 witness: one valid two-element entry for axis x followed by a
three-element entry for axis y: x is applied with margin 0 and the
three-element entry raises the unpacking ValueError. -/
theorem ms_set_soft_limits_spec_witness :
    (ms_set_soft_limits ([("x", [1, 2])] ++ ("y", [3, 4, 5]) :: [])).2 =
        some PyErr.valueError ∧
    (ms_set_soft_limits ([("x", [1, 2])] ++ ("y", [3, 4, 5]) :: [])).1 =
        (ms_set_soft_limits [("x", [1, 2])]).1 ∧
    (ms_set_soft_limits [("x", [1, 2])]).1.length =
        [((("x" : String), ([1, 2] : List ℚ)))].length := by
  have e1 : (1 : ℚ) * 1000 / ENC_RES_NM = ((2 : ℤ) : ℚ) := by
    norm_num [ENC_RES_NM]
  have e2 : (2 : ℚ) * 1000 / ENC_RES_NM = ((4 : ℤ) : ℚ) := by
    norm_num [ENC_RES_NM]
  have e3 : (0 : ℚ) * 1000 / ENC_RES_NM = ((0 : ℤ) : ℚ) := by
    norm_num [ENC_RES_NM]
  have hstage : stage_set_soft_limits 1 2 0 =
      .ok (get_cmd_str "46".data
        [pyHex (twosComplement32 4) 8, pyHex (twosComplement32 2) 8,
         pyHex (0 : ℤ).toNat 4]) := by
    unfold stage_set_soft_limits
    rw [e1, e2, e3, pyRound_intCast, pyRound_intCast, pyRound_intCast]
    norm_num
  refine ms_set_soft_limits_spec.2 [("x", [1, 2])] "y" 3 4 5 [] ?_
  intro e he
  rcases List.mem_singleton.mp he with rfl
  exact ⟨1, 2, rfl, _, hstage⟩

end Newscale
